import Mathlib

/-!
Verification of the secure-redact PII detection-and-rewrite service.

The repository glue code (`api/index.py` `redact_pii`, `health_check`,
`main.py` `main`) is embedded directly from the source.  The detection /
merge / rewrite core lives in the external `presidio` library, so those
parts are modelled from the specification (spec sections 4.2, 4.3, 4.4 and 7),
as marked on each definition.  Text is modelled as `List Char` (Python `str`),
scores as `ℚ` (Python `float`).
-/

deriving instance DecidableEq for Except

namespace SecureRedact

/-- A detected PII span, mirroring presidio's `RecognizerResult`
(`entity_type`, `start`, `end`, `score`); `end` is spelled `stop` because
`end` is a Lean keyword.  Offsets are half-open over the input text. -/
structure Span where
  entity_type : String
  start : Nat
  stop : Nat
  score : ℚ
  deriving DecidableEq

/-- Anonymization operator configuration, mirroring the two
`OperatorConfig` shapes built in `api/index.py` lines 101-115: literal
`replace` with a `new_value`, and `mask` with a single `masking_char`,
a `chars_to_mask` count, and the `from_end` flag. -/
inductive OperatorConfig where
  | replace (new_value : List Char)
  | mask (masking_char : Char) (chars_to_mask : Nat) (from_end : Bool)
  deriving DecidableEq

/-- Python slice `t[a:b]` for `0 ≤ a ≤ b` (the only use sites). -/
def pySlice (t : List Char) (a b : Nat) : List Char :=
  (t.drop a).take (b - a)

/-- Modelled from the spec: operator semantics of section 4.3 (the presidio
operator implementations are not in the repository).  `replace` substitutes
the fixed literal; `mask` replaces `min chars_to_mask length` characters by
the mask character, counted from the end of the span when `from_end` is set
(the leading characters survive), from the start otherwise. -/
def applyOperator (op : OperatorConfig) (s : List Char) : List Char :=
  match op with
  | .replace new_value => new_value
  | .mask c n from_end =>
    if from_end then s.take (s.length - n) ++ List.replicate (min n s.length) c
    else List.replicate (min n s.length) c ++ s.drop n

/-- Modelled from the spec: the Rewriter of section 4.4 (presidio
`AnonymizerEngine` internals are not in the repository).  Walks the resolved
span list left to right, copying the untouched gap since position `pos`,
then the operator's replacement for the span's substring, and finally the
trailing remainder. -/
def rewriteFrom (text : List Char) (op : OperatorConfig) : Nat → List Span → List Char
  | pos, [] => text.drop pos
  | pos, s :: rest =>
    (text.drop pos).take (s.start - pos)
      ++ applyOperator op (pySlice text s.start s.stop)
      ++ rewriteFrom text op s.stop rest

/-- Modelled from the spec: `AnonymizerEngine.anonymize` with a single
`DEFAULT` operator binding (sections 4.3-4.4); per section 4.4 a span whose
`end` exceeds the text length is a `MalformedSpan` failure, not a silent
truncation. -/
def anonymize (text : List Char) (spans : List Span) (op : OperatorConfig) :
    Except String (List Char) :=
  if spans.any (fun s => text.length < s.stop) then .error "MalformedSpan"
  else .ok (rewriteFrom text op 0 spans)

/-- `pos ≤ s₁.start ≤ s₁.stop ≤ s₂.start ≤ ... ≤ text.length`: the spans are
in bounds, ordered and non-overlapping starting from position `pos` — the
shape of a Resolved Span List (spec section 3). -/
def spansOK (text : List Char) : Nat → List Span → Prop
  | _, [] => True
  | pos, s :: rest =>
    pos ≤ s.start ∧ s.start ≤ s.stop ∧ s.stop ≤ text.length ∧ spansOK text s.stop rest

instance instDecidableSpansOK (text : List Char) :
    (pos : Nat) → (spans : List Span) → Decidable (spansOK text pos spans)
  | _, [] => isTrue trivial
  | pos, s :: rest =>
    have : Decidable (spansOK text s.stop rest) := instDecidableSpansOK text s.stop rest
    inferInstanceAs (Decidable
      (pos ≤ s.start ∧ s.start ≤ s.stop ∧ s.stop ≤ text.length ∧ spansOK text s.stop rest))

/-- Position `i` of the text lies inside one of the spans. -/
def covered (spans : List Span) (i : Nat) : Prop :=
  ∃ s ∈ spans, s.start ≤ i ∧ i < s.stop

instance (spans : List Span) (i : Nat) : Decidable (covered spans i) :=
  inferInstanceAs (Decidable (∃ s ∈ spans, s.start ≤ i ∧ i < s.stop))

/-- Two candidate spans are exact duplicates when they agree on
`start`, `end` and `entity_type` (spec section 4.2 step 1). -/
def sameDetection (a b : Span) : Bool :=
  a.start == b.start && a.stop == b.stop && a.entity_type == b.entity_type

/-- Modelled from the spec: duplicate-dropping step of the Merger
(section 4.2 step 1) — among exact duplicates the highest score is kept,
first wins on a score tie. -/
def dedupStep (acc : List Span) (s : Span) : List Span :=
  if acc.any (fun t => sameDetection t s && decide (s.score ≤ t.score)) then acc
  else acc.filter (fun t => !sameDetection t s) ++ [s]

/-- Modelled from the spec: drop exact duplicates keeping the highest
score (spec section 4.2 step 1). -/
def dedup (cands : List Span) : List Span :=
  cands.foldl dedupStep []

/-- Sort key of the Merger (spec section 4.2 step 2): `start` ascending,
then score descending, then length descending. -/
def spanKey (s : Span) : Nat ×ₗ (ℚ ×ₗ ℤ) :=
  toLex (s.start, toLex (-s.score, -((s.stop : ℤ) - (s.start : ℤ))))

/-- Total sort order on candidate spans induced by `spanKey`. -/
def spanLe (a b : Span) : Prop :=
  spanKey a ≤ spanKey b

instance : DecidableRel spanLe :=
  fun a b => inferInstanceAs (Decidable (spanKey a ≤ spanKey b))

instance : IsTotal Span spanLe :=
  ⟨fun a b => le_total (spanKey a) (spanKey b)⟩

instance : IsTrans Span spanLe :=
  ⟨fun _ _ _ h1 h2 => le_trans h1 h2⟩

/-- Modelled from the spec: overlap resolution of the Merger
(section 4.2 step 3) — between the current accepted span and an overlapping
candidate, the higher score wins, a longer span wins a score tie, and the one
earlier in sort order wins a further tie. -/
def better (cur s : Span) : Span :=
  if cur.score < s.score then s
  else if cur.score = s.score ∧ cur.stop - cur.start < s.stop - s.start then s
  else cur

/-- Modelled from the spec: the left-to-right sweep of the Merger
(section 4.2 steps 3-4) over the sorted candidates, maintaining a current
accepted span. -/
def sweep : Option Span → List Span → List Span
  | none, [] => []
  | some cur, [] => [cur]
  | none, s :: rest => sweep (some s) rest
  | some cur, s :: rest =>
    if cur.stop ≤ s.start then cur :: sweep (some s) rest
    else sweep (some (better cur s)) rest

/-- Modelled from the spec: `merge` of section 4.2 on already validated
candidates — drop exact duplicates, sort, sweep. -/
def mergeSpans (cands : List Span) : List Span :=
  sweep none (List.insertionSort spanLe (dedup cands))

/-- Modelled from the spec: the caller-supplied entity filter drops
non-requested types before anything reaches the Merger (spec section 4.2);
a missing filter keeps every candidate. -/
def entityFilter (entities : Option (List String)) (raw : List Span) : List Span :=
  match entities with
  | none => raw
  | some ts => raw.filter (fun s => ts.contains s.entity_type)

/-- Modelled from the spec: `AnalyzerEngine.analyze` (the recognizers and
the Merger, spec sections 4.1-4.2; presidio internals are not in the
repository).  The raw candidate spans produced by the statistical and
pattern recognizers are a parameter, since the NLP model is an external
dependency.  A zero-length or out-of-bounds candidate reaching the Merger
is the fatal `InvalidSpan` condition of section 7. -/
def analyze (text : List Char) (entities : Option (List String)) (raw : List Span) :
    Except String (List Span) :=
  if (entityFilter entities raw).any (fun s => s.stop ≤ s.start || text.length < s.stop)
  then .error "InvalidSpan"
  else .ok (mergeSpans (entityFilter entities raw))

/-- `RedactRequest` of `api/index.py` (lines 36-40); the pydantic schema
defaults are `mask_char = "*"` and `anonymize = True`. -/
structure RedactRequest where
  text : List Char
  entities : Option (List String)
  mask_char : List Char
  anonymize : Bool
  deriving DecidableEq

/-- The pydantic default of the `mask_char` field (`"*"`). -/
def defaultMaskChar : List Char := ['*']

/-- `EntityResult` of `api/index.py` (lines 42-47). -/
structure EntityResult where
  type : String
  start : Nat
  stop : Nat
  score : ℚ
  text : List Char
  deriving DecidableEq

/-- The two shapes of the `metadata` dict built by `redact_pii`:
`{status: empty_input}` for empty input, and the
`{engine, model, entity_count}` dict otherwise. -/
inductive Metadata where
  | empty_input
  | results (entity_count : Nat)
  deriving DecidableEq

/-- `RedactResponse` of `api/index.py` (lines 49-53). -/
structure RedactResponse where
  original_length : Nat
  redacted_text : List Char
  entities_detected : List EntityResult
  metadata : Metadata
  deriving DecidableEq

/-- Python `round(x, 4)` on the score, modelled on `ℚ` as
`⌊q * 10000 + 1/2⌋ / 10000`, written with integer arithmetic on the
numerator and denominator (`(q * 20000 + den) / (2 * den)` floor-divided)
so that it evaluates by kernel reduction.  Round-half-up; Python floats
round half to even, a difference invisible away from exact half-way
points. -/
def round4 (q : ℚ) : ℚ :=
  mkRat (Int.fdiv (q.num * 20000 + (q.den : Int)) (2 * (q.den : Int))) 10000

/-- The operator dict built by `redact_pii` (`api/index.py` lines 101-115)
and `main` (`main.py` lines 56-65): the `DEFAULT` binding starts as literal
`replace` with `"<PII>"` and is overridden by the `mask` operator exactly
when the supplied mask string is truthy and of length 1. -/
def chooseOperators (mask_char : List Char) : OperatorConfig :=
  match mask_char with
  | [c] => .mask c 100 true
  | _ => .replace "<PII>".toList

/-- The entity normalization loop of `redact_pii` (`api/index.py`
lines 126-136) and `main` (`main.py` lines 75-84): each analysis result is
reported with its type, original-text offsets, score rounded to 4 digits,
and the slice of the *original* text at those offsets. -/
def toEntityResult (text : List Char) (res : Span) : EntityResult :=
  { type := res.entity_type
    start := res.start
    stop := res.stop
    score := round4 res.score
    text := pySlice text res.start res.stop }

/-- `redact_pii` of `api/index.py` (lines 75-147).  The module-level
`analyzer` global being `None` after a failed initialization is modelled by
`loaded = false`; the raw recognizer candidates are a parameter (external
NLP model).  An `HTTPException` and the spec-modelled fatal conditions are
`Except.error`. -/
def redact_pii (loaded : Bool) (raw : List Span) (request : RedactRequest) :
    Except String RedactResponse :=
  if loaded = false then .error "Server Configuration Error: NLP Model Missing"
  else if request.text = [] then
    .ok { original_length := 0
          redacted_text := []
          entities_detected := []
          metadata := .empty_input }
  else
    match analyze request.text request.entities raw with
    | .error e => .error e
    | .ok analysis_results =>
      match (if request.anonymize then
          anonymize request.text analysis_results (chooseOperators request.mask_char)
        else .ok request.text) with
      | .error e => .error e
      | .ok final_text =>
        let structured_entities := analysis_results.map (toEntityResult request.text)
        .ok { original_length := request.text.length
              redacted_text := final_text
              entities_detected := structured_entities
              metadata := .results structured_entities.length }

/-- Response of the `/health` endpoint (`api/index.py` lines 64-73). -/
structure HealthResponse where
  status : String
  nlp_engine_loaded : Bool
  deriving DecidableEq

/-- `health_check` of `api/index.py`: always reports `"operational"`, and
whether the global `analyzer` is non-`None`. -/
def health_check (loaded : Bool) : HealthResponse :=
  { status := "operational", nlp_engine_loaded := loaded }

/-- The `output_data` dict of `main.py` (lines 86-91). -/
structure MainOutput where
  original_length : Nat
  redacted_text : List Char
  entities_detected : List EntityResult
  is_success : Bool
  deriving DecidableEq

/-- `main` of `main.py` (lines 13-104), after input marshalling: empty text
returns early with no output (`.ok none`).  `main` performs no `analyzer`
guard — when the global is `None` the attribute access `analyzer.analyze`
raises `AttributeError`, modelled as an error distinct from the explicit
configuration error of `redact_pii`.  Unlike the endpoint, `main` passes no
entity filter to `analyze`. -/
def main (loaded : Bool) (raw : List Span) (text_to_process : List Char)
    (should_anonymize : Bool) (mask_char : List Char) :
    Except String (Option MainOutput) :=
  if text_to_process = [] then .ok none
  else if loaded = false then
    .error "AttributeError: NoneType object has no attribute analyze"
  else
    match analyze text_to_process none raw with
    | .error e => .error e
    | .ok analysis_results =>
      match (if should_anonymize then
          anonymize text_to_process analysis_results (chooseOperators mask_char)
        else .ok text_to_process) with
      | .error e => .error e
      | .ok final_text =>
        .ok (some
          { original_length := text_to_process.length
            redacted_text := final_text
            entities_detected := analysis_results.map (toEntityResult text_to_process)
            is_success := true })

/-! ### Theorems -/

/-- Inversion of a successful `redact_pii` run: either the empty-input
short-circuit fired, or analysis and the optional anonymization step both
succeeded and the response is assembled from their results. -/
theorem redact_pii_ok_shape (loaded : Bool) (raw : List Span)
    (request : RedactRequest) (resp : RedactResponse)
    (h : redact_pii loaded raw request = .ok resp) :
    (request.text = [] ∧
      resp = { original_length := 0, redacted_text := [], entities_detected := [],
               metadata := .empty_input }) ∨
    (request.text ≠ [] ∧ ∃ analysis_results final_text,
      analyze request.text request.entities raw = .ok analysis_results ∧
      (if request.anonymize then
          anonymize request.text analysis_results (chooseOperators request.mask_char)
        else .ok request.text) = .ok final_text ∧
      resp = { original_length := request.text.length,
               redacted_text := final_text,
               entities_detected := analysis_results.map (toEntityResult request.text),
               metadata :=
                 .results (analysis_results.map (toEntityResult request.text)).length }) := by
  unfold redact_pii at h
  split at h
  · exact absurd h (by simp)
  · split at h
    · exact Or.inl ⟨by assumption, (Except.ok.inj h).symm⟩
    · refine Or.inr ⟨by assumption, ?_⟩
      split at h
      · exact absurd h (by simp)
      · split at h
        · exact absurd h (by simp)
        · exact ⟨_, _, by assumption, by assumption, (Except.ok.inj h).symm⟩

/-- Claim C6: calling the pipeline with an empty input string returns an
empty entity list and an empty redacted text, not an error. -/
theorem c6_empty_input (raw : List Span) (request : RedactRequest)
    (h : request.text = []) :
    redact_pii true raw request
      = .ok { original_length := 0, redacted_text := [], entities_detected := [],
              metadata := .empty_input } := by
  simp [redact_pii, h]

/-- Witness for C6 at a concrete empty-text request. -/
theorem c6_empty_input_witness :
    redact_pii true [⟨"PHONE", 0, 5, 1⟩] ⟨[], none, ['*'], true⟩
      = .ok { original_length := 0, redacted_text := [], entities_detected := [],
              metadata := .empty_input } :=
  c6_empty_input [⟨"PHONE", 0, 5, 1⟩] ⟨[], none, ['*'], true⟩ rfl

/-- Claim C10: for every request the response's `original_length` equals the
length of the input text, whatever anonymization did to the output length. -/
theorem c10_original_length (loaded : Bool) (raw : List Span)
    (request : RedactRequest) (resp : RedactResponse)
    (h : redact_pii loaded raw request = .ok resp) :
    resp.original_length = request.text.length := by
  rcases redact_pii_ok_shape loaded raw request resp h with ⟨he, rfl⟩ | ⟨-, _, _, -, -, rfl⟩
  · simp [he]
  · rfl

/-- Witness for C10: a concrete run whose redaction changes the length. -/
theorem c10_original_length_witness :
    redact_pii true [⟨"A", 0, 3, 1⟩] ⟨"abcdef".toList, none, [], true⟩
        = .ok ⟨6, "<PII>def".toList, [⟨"A", 0, 3, 1, "abc".toList⟩], .results 1⟩ ∧
    (6 : Nat) = "abcdef".toList.length :=
  ⟨by decide, c10_original_length true [⟨"A", 0, 3, 1⟩] ⟨"abcdef".toList, none, [], true⟩
    ⟨6, "<PII>def".toList, [⟨"A", 0, 3, 1, "abc".toList⟩], .results 1⟩ (by decide)⟩

/-- Claim C4: every span in the returned entity list reports as its `text`
field exactly the slice of the original input text between its reported
offsets — the offsets reference the input, never the rewritten output. -/
theorem c4_offsets_reference_original (loaded : Bool) (raw : List Span)
    (request : RedactRequest) (resp : RedactResponse)
    (h : redact_pii loaded raw request = .ok resp) :
    ∀ e ∈ resp.entities_detected, e.text = pySlice request.text e.start e.stop := by
  rcases redact_pii_ok_shape loaded raw request resp h with ⟨-, rfl⟩ | ⟨-, _, _, -, -, rfl⟩
  · intro e he
    exact absurd he (by simp)
  · intro e he
    simp only [List.mem_map] at he
    obtain ⟨res, -, rfl⟩ := he
    rfl

/-- Witness for C4 at a concrete run (the "<PII>" replacement shifts all
later text, yet the reported slice is taken from the original input). -/
theorem c4_offsets_witness :
    redact_pii true [⟨"A", 1, 3, 1⟩] ⟨"abcdef".toList, none, [], true⟩
        = .ok ⟨6, "a<PII>def".toList, [⟨"A", 1, 3, 1, "bc".toList⟩], .results 1⟩ ∧
    ∀ e ∈ [EntityResult.mk "A" 1 3 1 "bc".toList],
      e.text = pySlice "abcdef".toList e.start e.stop :=
  ⟨by decide,
    c4_offsets_reference_original true [⟨"A", 1, 3, 1⟩] ⟨"abcdef".toList, none, [], true⟩
      ⟨6, "a<PII>def".toList, [⟨"A", 1, 3, 1, "bc".toList⟩], .results 1⟩ (by decide)⟩

/-- Claim C8: every span in the returned entity list reports its type, its
original-text offsets, its score rounded to 4 decimal digits, and the
original matched substring. -/
theorem c8_entity_fields (raw : List Span) (request : RedactRequest)
    (resp : RedactResponse) (hne : request.text ≠ [])
    (h : redact_pii true raw request = .ok resp) :
    ∃ analysis_results, analyze request.text request.entities raw = .ok analysis_results ∧
      resp.entities_detected = analysis_results.map (fun res =>
        { type := res.entity_type, start := res.start, stop := res.stop,
          score := round4 res.score, text := pySlice request.text res.start res.stop }) := by
  rcases redact_pii_ok_shape true raw request resp h with ⟨he, -⟩ | ⟨-, ar, ft, ha, -, rfl⟩
  · exact absurd he hne
  · exact ⟨ar, ha, rfl⟩

/-- Witness for C8 at a concrete run with a score needing rounding. -/
theorem c8_entity_fields_witness :
    "ab".toList ≠ [] ∧
    ∃ analysis_results,
      analyze "ab".toList none [⟨"A", 0, 2, mkRat 123456 1000000⟩] = .ok analysis_results ∧
      [EntityResult.mk "A" 0 2 (mkRat 1235 10000) "ab".toList] = analysis_results.map (fun res =>
        { type := res.entity_type, start := res.start, stop := res.stop,
          score := round4 res.score, text := pySlice "ab".toList res.start res.stop }) :=
  ⟨by decide,
    c8_entity_fields [⟨"A", 0, 2, mkRat 123456 1000000⟩] ⟨"ab".toList, none, ['*'], true⟩
      ⟨2, "**".toList, [⟨"A", 0, 2, mkRat 1235 10000, "ab".toList⟩], .results 1⟩
      (by decide) (by decide)⟩

/-- Claim C9: with the anonymize flag false the returned `redacted_text` is
the input unchanged, and `entities_detected` is the same detection result
the anonymizing run returns. -/
theorem c9_detection_only (raw : List Span) (request : RedactRequest)
    (resp : RedactResponse) (hflag : request.anonymize = false)
    (h : redact_pii true raw request = .ok resp) :
    resp.redacted_text = request.text ∧
    ∀ resp2, redact_pii true raw { request with anonymize := true } = .ok resp2 →
      resp2.entities_detected = resp.entities_detected := by
  rcases redact_pii_ok_shape true raw request resp h with ⟨he, rfl⟩ | ⟨hne, ar, ft, ha, hstep, rfl⟩
  · refine ⟨he.symm, ?_⟩
    intro resp2 h2
    rcases redact_pii_ok_shape true raw _ resp2 h2 with ⟨-, rfl⟩ | ⟨hne2, -, -, -, -, -⟩
    · rfl
    · exact absurd he hne2
  · rw [hflag] at hstep
    simp only [Bool.false_eq_true, if_false, Except.ok.injEq] at hstep
    refine ⟨hstep.symm, ?_⟩
    intro resp2 h2
    rcases redact_pii_ok_shape true raw _ resp2 h2 with ⟨he2, -⟩ | ⟨-, ar2, ft2, ha2, -, rfl⟩
    · exact absurd he2 hne
    · have : ar2 = ar := Except.ok.inj (ha2.symm.trans ha)
      rw [this]

/-- Witness for C9: a concrete detection-only run returns the text
unchanged, and its entity list matches the anonymizing run's. -/
theorem c9_detection_only_witness :
    redact_pii true [⟨"A", 0, 3, 1⟩] ⟨"abcdef".toList, none, ['*'], false⟩
        = .ok ⟨6, "abcdef".toList, [⟨"A", 0, 3, 1, "abc".toList⟩], .results 1⟩ ∧
    ("abcdef".toList = "abcdef".toList ∧
      ∀ resp2, redact_pii true [⟨"A", 0, 3, 1⟩]
          { RedactRequest.mk "abcdef".toList none ['*'] false with anonymize := true }
          = .ok resp2 →
        resp2.entities_detected = [EntityResult.mk "A" 0 3 1 "abc".toList]) :=
  ⟨by decide,
    c9_detection_only [⟨"A", 0, 3, 1⟩] ⟨"abcdef".toList, none, ['*'], false⟩
      ⟨6, "abcdef".toList, [⟨"A", 0, 3, 1, "abc".toList⟩], .results 1⟩ rfl (by decide)⟩

/-- Claim C5: a supplied mask string that is not exactly one character makes
the serving layer fall back to the literal replace operator; no mask
operator is handed to the anonymization stage. -/
theorem c5_mask_char_fallback (mask_char : List Char) (h : mask_char.length ≠ 1) :
    chooseOperators mask_char = .replace "<PII>".toList ∧
    ∀ c n fe, chooseOperators mask_char ≠ .mask c n fe := by
  have hrep : chooseOperators mask_char = .replace "<PII>".toList := by
    match mask_char with
    | [] => rfl
    | [c] => exact absurd rfl h
    | a :: b :: rest => rfl
  exact ⟨hrep, fun c n fe hmask => by rw [hrep] at hmask; exact OperatorConfig.noConfusion hmask⟩

/-- Witness for C5 at the two-character mask string "**". -/
theorem c5_mask_char_fallback_witness :
    (['*', '*'].length ≠ 1 ∧ chooseOperators ['*', '*'] = .replace "<PII>".toList) ∧
    ∀ c n fe, chooseOperators ['*', '*'] ≠ .mask c n fe :=
  ⟨⟨by decide, (c5_mask_char_fallback ['*', '*'] (by decide)).1⟩,
    (c5_mask_char_fallback ['*', '*'] (by decide)).2⟩

/-- Counterexample to claim C3 as stated: a request that omits all operator
configuration receives the pydantic default mask character `"*"`, and the
pipeline then applies the mask operator — the redacted text is a run of
`*`, not the literal placeholder substitution. -/
theorem c3_counterexample :
    chooseOperators defaultMaskChar = .mask '*' 100 true ∧
    chooseOperators defaultMaskChar ≠ .replace "<PII>".toList ∧
    redact_pii true [⟨"PHONE", 0, 6, 1⟩] ⟨"abcdef".toList, none, defaultMaskChar, true⟩
      = .ok ⟨6, "******".toList, [⟨"PHONE", 0, 6, 1, "abcdef".toList⟩], .results 1⟩ ∧
    "******".toList ≠ "<PII>".toList := by
  refine ⟨rfl, by decide, by decide, by decide⟩

/-- Claim C3 amended: the literal placeholder substitution
(`replace` with `"<PII>"`) is the built-in fallback used exactly when the
supplied mask string is not a single character; a request relying on the
schema defaults gets the mask operator with `'*'`. -/
theorem c3_default_operator :
    chooseOperators defaultMaskChar = .mask '*' 100 true ∧
    ∀ mask_char : List Char, mask_char.length ≠ 1 →
      chooseOperators mask_char = .replace "<PII>".toList := by
  refine ⟨rfl, ?_⟩
  intro mask_char h
  match mask_char with
  | [] => rfl
  | [c] => exact absurd rfl h
  | a :: b :: rest => rfl

/-- Witness for the amended C3 at the empty mask string. -/
theorem c3_default_operator_witness :
    chooseOperators [] = .replace "<PII>".toList :=
  c3_default_operator.2 [] (by decide)

/-- Counterexample to claim C7 as stated: with the NLP model failed to load,
the batch actor entry point `main` dereferences the `None` analyzer and
fails with `AttributeError` — a null-reference-style condition, not an
explicit configuration error. -/
theorem c7_counterexample :
    main false [] "Hello".toList true ['*']
      = .error "AttributeError: NoneType object has no attribute analyze" ∧
    "AttributeError: NoneType object has no attribute analyze"
      ≠ "Server Configuration Error: NLP Model Missing" ∧
    (health_check false).status = "operational" := by
  exact ⟨by decide, by decide, rfl⟩

/-- Claim C7 amended: after a failed initialization the health endpoint
reports the NLP engine not loaded, and the HTTP redaction endpoint fails
with an explicit configuration error; the batch actor entry point, which
performs no such guard, fails with a null-reference-style `AttributeError`
on any non-empty input. -/
theorem c7_failed_init (raw : List Span) :
    (health_check false).nlp_engine_loaded = false ∧
    (∀ request : RedactRequest, redact_pii false raw request
        = .error "Server Configuration Error: NLP Model Missing") ∧
    (∀ (text : List Char) (anonymize_flag : Bool) (mask_char : List Char), text ≠ [] →
      main false raw text anonymize_flag mask_char
        = .error "AttributeError: NoneType object has no attribute analyze") := by
  refine ⟨rfl, fun request => by simp [redact_pii], ?_⟩
  intro text anonymize_flag mask_char h
  unfold main
  rw [if_neg h]
  rfl

/-- Witness for the amended C7 at a concrete non-empty input. -/
theorem c7_failed_init_witness :
    main false [] "x".toList true ['*']
      = .error "AttributeError: NoneType object has no attribute analyze" :=
  (c7_failed_init []).2.2 "x".toList true ['*'] (by decide)

/-! ### The mask rewriter (claim C1) -/

/-- Every span of a well-formed span list starts at or after the sweep
position, is properly ordered, and ends within the text. -/
theorem spansOK_mem (text : List Char) (pos : Nat) (spans : List Span)
    (h : spansOK text pos spans) :
    ∀ s ∈ spans, pos ≤ s.start ∧ s.start ≤ s.stop ∧ s.stop ≤ text.length := by
  induction spans generalizing pos with
  | nil => intro s hs; exact absurd hs (by simp)
  | cons t rest ih =>
    obtain ⟨h1, h2, h3, h4⟩ := h
    intro s hs
    rcases List.mem_cons.mp hs with rfl | hs'
    · exact ⟨h1, h2, h3⟩
    · obtain ⟨g1, g2, g3⟩ := ih t.stop h4 s hs'
      exact ⟨le_trans (le_trans h1 h2) g1, g2, g3⟩

/-- A well-formed span list passes the rewriter's `MalformedSpan` check. -/
theorem anonymize_ok_of_spansOK (text : List Char) (spans : List Span)
    (op : OperatorConfig) (h : spansOK text 0 spans) :
    anonymize text spans op = .ok (rewriteFrom text op 0 spans) := by
  unfold anonymize
  rw [if_neg]
  simp only [List.any_eq_true, decide_eq_true_eq, not_exists, not_and, not_lt]
  intro s hs
  exact (spansOK_mem text 0 spans h s hs).2.2

/-- The slice of a span within bounds has the span's length. -/
theorem pySlice_length (t : List Char) (a b : Nat) (hab : a ≤ b) (hb : b ≤ t.length) :
    (pySlice t a b).length = b - a := by
  simp only [pySlice, List.length_take, List.length_drop]
  omega

/-- With `from_end` set and full coverage (`chars_to_mask` at least the
substring length), the mask operator replaces the whole substring by a run
of the mask character of the same length. -/
theorem applyOperator_mask_full (c : Char) (n : Nat) (s : List Char)
    (h : s.length ≤ n) :
    applyOperator (.mask c n true) s = List.replicate s.length c := by
  simp [applyOperator, Nat.sub_eq_zero_of_le h, min_eq_right h]

/-- The full-coverage mask rewriter preserves the length of the remaining
text. -/
theorem rewriteFrom_mask_length (text : List Char) (c : Char) (n : Nat)
    (spans : List Span) (pos : Nat) (hok : spansOK text pos spans)
    (hpos : pos ≤ text.length) (hfull : ∀ s ∈ spans, s.stop - s.start ≤ n) :
    (rewriteFrom text (.mask c n true) pos spans).length = text.length - pos := by
  induction spans generalizing pos with
  | nil => simp [rewriteFrom]
  | cons s rest ih =>
    obtain ⟨h1, h2, h3, h4⟩ := hok
    have hlen : (pySlice text s.start s.stop).length = s.stop - s.start :=
      pySlice_length text s.start s.stop h2 h3
    have hmask := applyOperator_mask_full c n (pySlice text s.start s.stop)
      (by rw [hlen]; exact hfull s (List.mem_cons_self s rest))
    have ihr := ih s.stop h4 h3 (fun t ht => hfull t (List.mem_cons_of_mem s ht))
    simp only [rewriteFrom, hmask, hlen, List.length_append, List.length_take,
      List.length_drop, List.length_replicate, ihr]
    omega

/-- Positional characterization of the full-coverage mask rewriter: inside a
span the output character is the mask character, outside every span it is
the original character of the input text. -/
theorem rewriteFrom_mask_getElem (text : List Char) (c : Char) (n : Nat)
    (spans : List Span) (pos : Nat) (hok : spansOK text pos spans)
    (hpos : pos ≤ text.length) (hfull : ∀ s ∈ spans, s.stop - s.start ≤ n)
    (i : Nat) :
    (rewriteFrom text (.mask c n true) pos spans)[i]?
      = if covered spans (pos + i) then some c else text[pos + i]? := by
  induction spans generalizing pos i with
  | nil =>
    have : ¬ covered [] (pos + i) := by simp [covered]
    simp only [rewriteFrom, List.getElem?_drop, if_neg this]
  | cons s rest ih =>
    obtain ⟨h1, h2, h3, h4⟩ := hok
    have hlen : (pySlice text s.start s.stop).length = s.stop - s.start :=
      pySlice_length text s.start s.stop h2 h3
    have hmask := applyOperator_mask_full c n (pySlice text s.start s.stop)
      (by rw [hlen]; exact hfull s (List.mem_cons_self s rest))
    have hA : ((text.drop pos).take (s.start - pos)).length = s.start - pos := by
      simp only [List.length_take, List.length_drop]
      omega
    rw [show rewriteFrom text (.mask c n true) pos (s :: rest)
        = (text.drop pos).take (s.start - pos)
          ++ applyOperator (.mask c n true) (pySlice text s.start s.stop)
          ++ rewriteFrom text (.mask c n true) s.stop rest from rfl,
      hmask, hlen, List.append_assoc]
    by_cases hi1 : i < s.start - pos
    · rw [List.getElem?_append_left (by rw [hA]; exact hi1),
        List.getElem?_take_of_lt hi1, List.getElem?_drop]
      have hnc : ¬ covered (s :: rest) (pos + i) := by
        rintro ⟨t, ht, hts, htp⟩
        rcases List.mem_cons.mp ht with rfl | ht'
        · omega
        · have := (spansOK_mem text s.stop rest h4 t ht').1
          omega
      rw [if_neg hnc]
    · rw [List.getElem?_append_right (by rw [hA]; omega), hA]
      by_cases hi2 : i - (s.start - pos) < s.stop - s.start
      · rw [List.getElem?_append_left (by
            rw [List.length_replicate]; exact hi2),
          List.getElem?_replicate_of_lt hi2]
        have hc : covered (s :: rest) (pos + i) :=
          ⟨s, List.mem_cons_self s rest, by omega, by omega⟩
        rw [if_pos hc]
      · rw [List.getElem?_append_right (by rw [List.length_replicate]; omega),
          List.length_replicate]
        have ihr := ih s.stop h4 h3
          (fun t ht => hfull t (List.mem_cons_of_mem s ht))
          (i - (s.start - pos) - (s.stop - s.start))
        rw [ihr]
        have harith : s.stop + (i - (s.start - pos) - (s.stop - s.start)) = pos + i := by
          omega
        rw [harith]
        have hcov : covered (s :: rest) (pos + i) ↔ covered rest (pos + i) := by
          constructor
          · rintro ⟨t, ht, hts, htp⟩
            rcases List.mem_cons.mp ht with rfl | ht'
            · omega
            · exact ⟨t, ht', hts, htp⟩
          · rintro ⟨t, ht, hts, htp⟩
            exact ⟨t, List.mem_cons_of_mem s ht, hts, htp⟩
        by_cases hcv : covered rest (pos + i)
        · rw [if_pos hcv, if_pos (hcov.mpr hcv)]
        · rw [if_neg hcv, if_neg (fun hcc => hcv (hcov.mp hcc))]

/-- Claim C1: for a well-formed span list anonymized under the mask
operator with full coverage, every position inside a detected span carries
the mask character, every position outside the spans carries the original
input character, and the output length equals the input length — each
span's substring is thus replaced by a run of the mask character of the
span's length and all other characters are untouched. -/
theorem c1_mask_full_coverage (text : List Char) (spans : List Span)
    (c : Char) (n : Nat) (hok : spansOK text 0 spans)
    (hfull : ∀ s ∈ spans, s.stop - s.start ≤ n) :
    ∃ redacted, anonymize text spans (.mask c n true) = .ok redacted ∧
      redacted.length = text.length ∧
      ∀ i : Nat, redacted[i]? = if covered spans i then some c else text[i]? := by
  refine ⟨rewriteFrom text (.mask c n true) 0 spans,
    anonymize_ok_of_spansOK text spans _ hok, ?_, ?_⟩
  · simpa using rewriteFrom_mask_length text c n spans 0 hok (Nat.zero_le _) hfull
  · intro i
    simpa using rewriteFrom_mask_getElem text c n spans 0 hok (Nat.zero_le _) hfull i

/-- Witness for C1 at the concrete input "ab12cd" with one span. -/
theorem c1_mask_full_coverage_witness :
    spansOK "ab12cd".toList 0 [⟨"NUM", 2, 4, 1⟩] ∧
    (∀ s ∈ [Span.mk "NUM" 2 4 1], s.stop - s.start ≤ 100) ∧
    ∃ redacted,
      anonymize "ab12cd".toList [⟨"NUM", 2, 4, 1⟩] (.mask '*' 100 true) = .ok redacted ∧
      redacted.length = "ab12cd".toList.length ∧
      ∀ i : Nat, redacted[i]?
        = if covered [⟨"NUM", 2, 4, 1⟩] i then some '*' else "ab12cd".toList[i]? :=
  ⟨by decide, by decide,
    c1_mask_full_coverage "ab12cd".toList [⟨"NUM", 2, 4, 1⟩] '*' 100 (by decide) (by decide)⟩

/-! ### The merger (claim C2) -/

/-- The sort order of the Merger is compatible with `start` ascending. -/
theorem spanLe_start_le {a b : Span} (h : spanLe a b) : a.start ≤ b.start := by
  unfold spanLe spanKey at h
  rcases (Prod.Lex.le_iff _ _).mp h with h1 | ⟨h1, -⟩
  · exact le_of_lt h1
  · exact le_of_eq h1

/-- Overlap resolution keeps one of the two conflicting spans. -/
theorem better_eq_or (cur s : Span) : better cur s = cur ∨ better cur s = s := by
  unfold better
  split
  · exact Or.inr rfl
  · split
    · exact Or.inr rfl
    · exact Or.inl rfl

/-- Invariant of the Merger's sweep: on candidates sorted by `start` that
all start at or after the current accepted span, the output is
non-overlapping (`stop ≤` next `start` for adjacent spans), sorted by
`start`, and bounded below by the current span's `start`. -/
theorem sweep_invariant (l : List Span) : ∀ cur : Span,
    List.Pairwise (fun a b => a.start ≤ b.start) l →
    (∀ a ∈ l, cur.start ≤ a.start) →
    List.Chain' (fun a b => a.stop ≤ b.start) (sweep (some cur) l) ∧
    List.Pairwise (fun a b => a.start ≤ b.start) (sweep (some cur) l) ∧
    ∀ b ∈ sweep (some cur) l, cur.start ≤ b.start := by
  induction l with
  | nil =>
    intro cur _ _
    refine ⟨by simp [sweep], by simp [sweep], ?_⟩
    intro b hb
    rw [show sweep (some cur) [] = [cur] from rfl] at hb
    rw [List.mem_singleton.mp hb]
  | cons s rest ih =>
    intro cur hpw hlb
    have hps : ∀ a ∈ rest, s.start ≤ a.start := (List.pairwise_cons.mp hpw).1
    have hpr := (List.pairwise_cons.mp hpw).2
    have hcs : cur.start ≤ s.start := hlb s (List.mem_cons_self s rest)
    rw [show sweep (some cur) (s :: rest)
        = if cur.stop ≤ s.start then cur :: sweep (some s) rest
          else sweep (some (better cur s)) rest from rfl]
    split
    · obtain ⟨hc1, hp1, hm1⟩ := ih s hpr hps
      refine ⟨?_, ?_, ?_⟩
      · rw [List.chain'_cons']
        refine ⟨?_, hc1⟩
        intro y hy
        exact le_trans (by assumption) (hm1 y (List.mem_of_mem_head? hy))
      · rw [List.pairwise_cons]
        exact ⟨fun b hb => le_trans hcs (hm1 b hb), hp1⟩
      · intro b hb
        rcases List.mem_cons.mp hb with rfl | hb'
        · exact le_refl _
        · exact le_trans hcs (hm1 b hb')
    · have hblb : ∀ a ∈ rest, (better cur s).start ≤ a.start := by
        intro a ha
        rcases better_eq_or cur s with hb | hb <;> rw [hb]
        · exact le_trans hcs (hps a ha)
        · exact hps a ha
      obtain ⟨hc1, hp1, hm1⟩ := ih (better cur s) hpr hblb
      refine ⟨hc1, hp1, ?_⟩
      intro b hb
      have hm := hm1 b hb
      rcases better_eq_or cur s with hbe | hbe <;> rw [hbe] at hm
      · exact hm
      · exact le_trans hcs hm

/-- The sweep over a `start`-sorted candidate list yields a
non-overlapping, `start`-sorted span list. -/
theorem sweep_none_good (l : List Span)
    (hpw : List.Pairwise (fun a b => a.start ≤ b.start) l) :
    List.Chain' (fun a b => a.stop ≤ b.start) (sweep none l) ∧
    List.Pairwise (fun a b => a.start ≤ b.start) (sweep none l) := by
  cases l with
  | nil => exact ⟨by simp [sweep], by simp [sweep]⟩
  | cons s rest =>
    rw [show sweep none (s :: rest) = sweep (some s) rest from rfl]
    obtain ⟨hc, hp, -⟩ := sweep_invariant rest s (List.pairwise_cons.mp hpw).2
      (List.pairwise_cons.mp hpw).1
    exact ⟨hc, hp⟩

/-- The Merger always produces a `start`-sorted, non-overlapping span
list. -/
theorem mergeSpans_sorted_nonoverlapping (cands : List Span) :
    List.Pairwise (fun a b => a.start ≤ b.start) (mergeSpans cands) ∧
    List.Chain' (fun a b => a.stop ≤ b.start) (mergeSpans cands) := by
  have hs : List.Sorted spanLe (List.insertionSort spanLe (dedup cands)) :=
    List.sorted_insertionSort spanLe (dedup cands)
  have hpw : List.Pairwise (fun a b => a.start ≤ b.start)
      (List.insertionSort spanLe (dedup cands)) :=
    hs.imp (fun h => spanLe_start_le h)
  obtain ⟨hc, hp⟩ := sweep_none_good _ hpw
  exact ⟨hp, hc⟩

/-- Claim C2: every span list returned by analysis is sorted by `start`
ascending and non-overlapping — each adjacent pair satisfies
`spans[i].end ≤ spans[i+1].start` — and so is the `entities_detected`
sequence obtained from it by the normalization map. -/
theorem c2_analysis_sorted_nonoverlapping (text : List Char)
    (entities : Option (List String)) (raw : List Span) (out : List Span)
    (h : analyze text entities raw = .ok out) :
    (List.Pairwise (fun a b => a.start ≤ b.start) out ∧
      List.Chain' (fun a b => a.stop ≤ b.start) out) ∧
    (List.Pairwise (fun a b => a.start ≤ b.start) (out.map (toEntityResult text)) ∧
      List.Chain' (fun a b => a.stop ≤ b.start) (out.map (toEntityResult text))) := by
  have hout : (List.Pairwise (fun a b => a.start ≤ b.start) out ∧
      List.Chain' (fun a b => a.stop ≤ b.start) out) := by
    unfold analyze at h
    split at h
    · exact absurd h (by simp)
    · obtain ⟨rfl⟩ := Except.ok.inj h
      exact mergeSpans_sorted_nonoverlapping _
  refine ⟨hout, List.pairwise_map.mpr (hout.1.imp fun hab => hab), ?_⟩
  rw [List.chain'_map]
  exact hout.2.imp fun a b hab => hab

/-- Witness for C2 at concrete overlapping, unsorted raw candidates. -/
theorem c2_analysis_witness :
    analyze "0123456789".toList none
        [⟨"B", 2, 6, mkRat 1 2⟩, ⟨"A", 0, 4, mkRat 1 2⟩, ⟨"C", 9, 10, 1⟩]
      = .ok [⟨"A", 0, 4, mkRat 1 2⟩, ⟨"C", 9, 10, 1⟩] ∧
    ((List.Pairwise (fun a b => a.start ≤ b.start)
        [Span.mk "A" 0 4 (mkRat 1 2), Span.mk "C" 9 10 1] ∧
      List.Chain' (fun a b => a.stop ≤ b.start)
        [Span.mk "A" 0 4 (mkRat 1 2), Span.mk "C" 9 10 1]) ∧
     (List.Pairwise (fun a b => a.start ≤ b.start)
        ([Span.mk "A" 0 4 (mkRat 1 2), Span.mk "C" 9 10 1].map
          (toEntityResult "0123456789".toList)) ∧
      List.Chain' (fun a b => a.stop ≤ b.start)
        ([Span.mk "A" 0 4 (mkRat 1 2), Span.mk "C" 9 10 1].map
          (toEntityResult "0123456789".toList)))) :=
  ⟨by decide,
    c2_analysis_sorted_nonoverlapping "0123456789".toList none
      [⟨"B", 2, 6, mkRat 1 2⟩, ⟨"A", 0, 4, mkRat 1 2⟩, ⟨"C", 9, 10, 1⟩]
      [⟨"A", 0, 4, mkRat 1 2⟩, ⟨"C", 9, 10, 1⟩] (by decide)⟩

end SecureRedact
